import Mathlib

/-!
Verification development for the MicroPython BLE peripheral library
(`ble_base.py` and `ble_ranger.py`).

The Python code is shallowly embedded: pure byte-building code becomes
functions on `List Nat` (byte values), stateful manager code becomes
explicit state passing on a `ManagerState` record, Python exceptions
crossing a function boundary become an explicit `Bool` "raised" flag or an
abort marker, and host-stack callbacks (which may themselves raise) are
modelled as opaque functions returning whether they raise.
-/

namespace BLERanger

/-- Embedding of Python `s.split(sep)` for a single-character separator
(the only form the code uses: `value.split(";")`, `command.split(":")`):
split on every occurrence of `sep`, keeping empty fields, so that
`"".split(sep) == [""]` and `";".split(";") == ["", ""]`. -/
def splitChar (sep : Char) : List Char → List (List Char)
  | [] => [[]]
  | c :: rest =>
    let r := splitChar sep rest
    if c = sep then [] :: r
    else (c :: r.headD []) :: r.tail

def pySplit (s : String) (sep : Char) : List String :=
  (splitChar sep s.data).map fun cs => ⟨cs⟩

/-- Embedding of Python `s.strip()` as performed implicitly by `int(s)`:
drop leading and trailing whitespace. -/
def pyStrip (cs : List Char) : List Char :=
  ((cs.dropWhile Char.isWhitespace).reverse.dropWhile Char.isWhitespace).reverse

/-- Embedding of Python `int(s)` on strings, as used by
`BLERanger.write_handler` (`channel = int(rcv[0])`): leading/trailing
whitespace is stripped, an optional single `+`/`-` sign is allowed, and the
remainder must be one or more ASCII digits, otherwise `ValueError`
(modelled as `none`).  (CPython's digit-group underscores are not modelled;
no claim involves them.) -/
def isDigits (cs : List Char) : Bool :=
  !cs.isEmpty && cs.all (·.isDigit)

def digitsToNat (cs : List Char) : Nat :=
  cs.foldl (fun a c => a * 10 + (c.toNat - 48)) 0

def parsePyInt (s : String) : Option Int :=
  match pyStrip s.data with
  | '+' :: cs => if isDigits cs then some ((digitsToNat cs : Nat) : Int) else none
  | '-' :: cs => if isDigits cs then some (-((digitsToNat cs : Nat) : Int)) else none
  | cs => if isDigits cs then some ((digitsToNat cs : Nat) : Int) else none

/-- How the batch loop of `BLERanger.write_handler` terminated: the
`except` around `int(rcv[0])` / `rcv[1]` prints `"invalid channel type"`
and `break`s, and the `except` around the callback invocation prints
`"failed to handle data"` and `break`s. -/
inductive AbortKind where
  | invalidChannel
  | handlerFailed
  deriving DecidableEq, Repr

/-- The channel registry `self.channel_callbacks` of `BLERanger`: a map
from integer channel id to the registered callback.  A callback is
modelled by what is observable here: whether invoking it with
`(channel, data)` raises an exception (`true` = raises). -/
def ChannelCallbacks := Int → Option (Int → String → Bool)

/-- Embedding of the `for command in commands` loop body of
`BLERanger.write_handler` (src/ble_ranger.py lines 46-64).  Returns the
list of callback invocations actually made, as `(channel, data)` pairs in
order (a raising invocation is included: the callback was entered), and
how the loop terminated, if it aborted.

- empty segments are skipped (`if(len(command) > 0)`);
- `rcv = command.split(":")`; `int(rcv[0])` failing, or `rcv[1]` being
  out of range, hits the first `except` and `break`s;
- a registered callback is invoked with `(channel, rcv[1])`; if it raises,
  the second `except` `break`s;
- an unregistered channel prints `"unhandled write"` and the loop
  continues. -/
def routeCommands (cbs : ChannelCallbacks) : List String → List (Int × String) × Option AbortKind
  | [] => ([], none)
  | command :: rest =>
    if 0 < command.length then
      let rcv := pySplit command ':'
      match parsePyInt (rcv.headD ""), rcv.get? 1 with
      | some channel, some data =>
        (match cbs channel with
         | some cb =>
           if cb channel data then
             ([(channel, data)], some .handlerFailed)
           else
             let r := routeCommands cbs rest
             ((channel, data) :: r.1, r.2)
         | none => routeCommands cbs rest)
      | _, _ => ([], some .invalidChannel)
    else
      routeCommands cbs rest

/-- Embedding of `BLERanger.write_handler(value)`:
`commands = value.split(";")`, then the batch loop. -/
def write_handler (cbs : ChannelCallbacks) (value : String) :
    List (Int × String) × Option AbortKind :=
  routeCommands cbs (pySplit value ';')

/-- A callback registry with only channel 1 registered, with a callback
that never raises (as in `ble_ranger.py`'s `main`). -/
def cbsChan1 : ChannelCallbacks :=
  fun n => if n = 1 then some (fun _ _ => false) else none

/-- A callback registry with only channel 1 registered, whose callback
raises on every invocation (models a failing handler). -/
def cbsRaise1 : ChannelCallbacks :=
  fun n => if n = 1 then some (fun _ _ => true) else none

end BLERanger

namespace BLEBase

/-- Is `b` a UTF-8 continuation byte (`0x80..0xBF`)? -/
def isCont (b : Nat) : Bool :=
  0x80 ≤ b && b ≤ 0xBF

/-- Strict UTF-8 validity of a byte sequence, as checked by Python
`bytes.decode()` (which raises `UnicodeError` on an invalid sequence):
one-byte `00..7F`; two-byte `C2..DF` + continuation; three-byte with the
`E0`/`ED` restrictions that exclude overlong encodings and surrogates;
four-byte with the `F0`/`F4` restrictions bounding code points at
`U+10FFFF`. -/
def utf8Valid : List Nat → Bool
  | [] => true
  | b :: rest =>
    if b ≤ 0x7F then utf8Valid rest
    else if 0xC2 ≤ b && b ≤ 0xDF then
      match rest with
      | c1 :: r => isCont c1 && utf8Valid r
      | [] => false
    else if b = 0xE0 then
      match rest with
      | c1 :: c2 :: r => (0xA0 ≤ c1 && c1 ≤ 0xBF) && isCont c2 && utf8Valid r
      | _ => false
    else if (0xE1 ≤ b && b ≤ 0xEC) || b = 0xEE || b = 0xEF then
      match rest with
      | c1 :: c2 :: r => isCont c1 && isCont c2 && utf8Valid r
      | _ => false
    else if b = 0xED then
      match rest with
      | c1 :: c2 :: r => (0x80 ≤ c1 && c1 ≤ 0x9F) && isCont c2 && utf8Valid r
      | _ => false
    else if b = 0xF0 then
      match rest with
      | c1 :: c2 :: c3 :: r => (0x90 ≤ c1 && c1 ≤ 0xBF) && isCont c2 && isCont c3 && utf8Valid r
      | _ => false
    else if 0xF1 ≤ b && b ≤ 0xF3 then
      match rest with
      | c1 :: c2 :: c3 :: r => isCont c1 && isCont c2 && isCont c3 && utf8Valid r
      | _ => false
    else if b = 0xF4 then
      match rest with
      | c1 :: c2 :: c3 :: r => (0x80 ≤ c1 && c1 ≤ 0x8F) && isCont c2 && isCont c3 && utf8Valid r
      | _ => false
    else false

/-- Embedding of `BLECharacteristic` (src/ble_base.py lines 63-75): a
UUID (kept as the string it was constructed from; `ubluetooth.UUID`
equality coincides with equality of these strings), capability flags, an
optional write callback, the stack-assigned handle (`None` until
`add_service` assigns it), and the cached value (bytes).  A write callback
is modelled by what the dispatcher can observe: whether invoking it with
`(conn_handle, value)` raises (`true` = raises). -/
structure BLECharacteristic where
  uuid : String
  flags : Nat
  write_callback : Option (Nat → List Nat → Bool)
  handle : Option Nat := none
  value : List Nat := []

/-- Embedding of `BLEService` (src/ble_base.py lines 78-84). -/
structure BLEService where
  uuid : String
  characteristics : List BLECharacteristic

/-- The mutable state of `BLEManager` (src/ble_base.py lines 87-103),
together with the advertising sub-object: the registered services, the
handle registry `characteristic_handles` (a dict, modelled as a partial
map), the connection set, the two lifecycle callbacks (each modelled by
whether it raises on a given conn handle), whether advertising is active,
and a counter of `advertising.start()` calls (an effect observable at the
radio stack). -/
structure ManagerState where
  services : List BLEService
  characteristic_handles : Nat → Option BLECharacteristic
  connections : Finset ℕ
  connect_callback : Option (Nat → Bool)
  disconnect_callback : Option (Nat → Bool)
  advActive : Bool
  advStartCount : Nat
  bleActive : Bool

/-- Events delivered by the radio stack to `BLEManager._irq_handler`:
`_IRQ_CENTRAL_CONNECT` (1), `_IRQ_CENTRAL_DISCONNECT` (2) carrying the
conn handle, `_IRQ_GATTS_WRITE` (3) carrying `(conn_handle, attr_handle)`. -/
inductive BLEEvent where
  | connect (conn : Nat)
  | disconnect (conn : Nat)
  | write (conn : Nat) (attrHandle : Nat)

/-- Embedding of `BLEManager._irq_handler` (src/ble_base.py lines
120-144).  `gattsRead` models `self.ble.gatts_read(attr_handle)` (the
bytes the central wrote).  The result is the state after the handler
returns or the exception escapes, paired with `true` when an exception
propagated out of the handler (there is no try/except anywhere in it):

- connect: `connections.add`, then the connect callback, if registered,
  may raise;
- disconnect: `connections.discard`, then the disconnect callback, if
  registered, may raise (and then `advertising.start()` is never
  reached); otherwise `advertising.start()` restarts advertising;
- write: `value = gatts_read(attr_handle)`, then `print(value.decode())`
  raises `UnicodeError` if `value` is not valid UTF-8; then the handle is
  resolved via `characteristic_handles` and the characteristic's write
  callback, if any, is invoked and may raise. -/
def irq_handler (gattsRead : Nat → List Nat) (st : ManagerState) (ev : BLEEvent) :
    ManagerState × Bool :=
  match ev with
  | .connect conn =>
    let st1 := { st with connections := insert conn st.connections }
    match st1.connect_callback with
    | some cb => (st1, cb conn)
    | none => (st1, false)
  | .disconnect conn =>
    let st1 := { st with connections := st.connections.erase conn }
    match st1.disconnect_callback with
    | some cb =>
      if cb conn then (st1, true)
      else ({ st1 with advActive := true, advStartCount := st1.advStartCount + 1 }, false)
    | none => ({ st1 with advActive := true, advStartCount := st1.advStartCount + 1 }, false)
  | .write conn attrHandle =>
    let value := gattsRead attrHandle
    if utf8Valid value then
      match st.characteristic_handles attrHandle with
      | some char =>
        match char.write_callback with
        | some cb => (st, cb conn value)
        | none => (st, false)
      | none => (st, false)
    else
      (st, true)

/-- The handle-assignment loop of `BLEManager.add_service`:
`for char, handle in zip(service.characteristics, handles[0]): char.handle
= handle` — positional zip, truncating at the shorter sequence as Python
`zip` does. -/
def assignHandles : List BLECharacteristic → List Nat → List BLECharacteristic
  | chs, [] => chs
  | [], _ => []
  | ch :: chs, h :: hs => { ch with handle := some h } :: assignHandles chs hs

/-- `self.characteristic_handles[handle] = char` — dict insertion
(overwriting any previous entry for `handle`). -/
def insertHandle (reg : Nat → Option BLECharacteristic) (h : Nat)
    (ch : BLECharacteristic) : Nat → Option BLECharacteristic :=
  fun k => if k = h then some ch else reg k

/-- Embedding of `BLEManager.add_service` (src/ble_base.py lines
156-171).  `stackResult` models the outcome of
`self.ble.gatts_register_services([service_def])`: `.ok hs` when the stack
returns handle tuple `handles` with `handles[0] = hs` (one handle per
characteristic, in submission order), `.error` when the stack raises
(e.g. resource exhaustion).  Note the order of operations in the source:
`self.services.append(service)` happens *before* the stack call, so on a
stack failure the exception propagates (`true`) with the service already
appended, no handle assigned, and the handle registry untouched.  On
success each zipped characteristic gets its handle and is inserted into
the registry; the stored service aliases the mutated characteristic
objects. -/
def add_service (st : ManagerState) (service : BLEService)
    (stackResult : Except Unit (List Nat)) : ManagerState × Bool :=
  let st1 := { st with services := st.services ++ [service] }
  match stackResult with
  | .error _ => (st1, true)
  | .ok handles =>
    let svc := { service with
      characteristics := assignHandles service.characteristics handles }
    let reg := (service.characteristics.zip handles).foldl
      (fun r p => insertHandle r p.2 { p.1 with handle := some p.2 })
      st.characteristic_handles
    ({ st1 with
        services := st.services ++ [svc],
        characteristic_handles := reg }, false)

/-- The inner loop of `BLEManager.notify` over one service's
characteristics: find the first characteristic whose UUID equals the
requested one, set its cached value (`char.set_value(value)`), and return
the updated list together with the (updated) characteristic found. -/
def notifyChars (uuid : String) (v : List Nat) :
    List BLECharacteristic → Option (List BLECharacteristic × BLECharacteristic)
  | [] => none
  | ch :: rest =>
    if ch.uuid = uuid then
      some ({ ch with value := v } :: rest, { ch with value := v })
    else
      match notifyChars uuid v rest with
      | some (rest', found) => some (ch :: rest', found)
      | none => none

/-- The outer loop of `BLEManager.notify` over the registered services. -/
def notifyServices (uuid : String) (v : List Nat) :
    List BLEService → Option (List BLEService × BLECharacteristic)
  | [] => none
  | s :: rest =>
    match notifyChars uuid v s.characteristics with
    | some (chs, found) => some ({ s with characteristics := chs } :: rest, found)
    | none =>
      match notifyServices uuid v rest with
      | some (rest', found) => some (s :: rest', found)
      | none => none

/-- Embedding of `BLEManager.notify` (src/ble_base.py lines 173-185):
locate the first characteristic (service order, then characteristic
order) whose UUID equals `char_uuid`; if found, update its cached value
and issue `self.ble.gatts_notify(conn_handle, char.handle, value)` once
for each connection in the connection set, then return.  If none is
found, print "not found" and perform no stack call.  The second component
lists the `gatts_notify` stack calls made, as
`(conn_handle, char.handle, value)` triples.  Python iterates the
connection set in unspecified order; the model enumerates it in ascending
order (the stated properties are order-insensitive). -/
def notify (st : ManagerState) (char_uuid : String) (v : List Nat) :
    ManagerState × List (Nat × Option Nat × List Nat) :=
  match notifyServices char_uuid v st.services with
  | some (services', found) =>
    ({ st with services := services' },
     (st.connections.sort (· ≤ ·)).map fun conn => (conn, found.handle, v))
  | none => (st, [])

/-- First characteristic with the given UUID in one service's list
(specification-side lookup used to state properties of `notify`). -/
def findCharInList (uuid : String) : List BLECharacteristic → Option BLECharacteristic
  | [] => none
  | ch :: rest => if ch.uuid = uuid then some ch else findCharInList uuid rest

/-- First characteristic with the given UUID across the registered
services, in registration order. -/
def findChar (uuid : String) : List BLEService → Option BLECharacteristic
  | [] => none
  | s :: rest =>
    match findCharInList uuid s.characteristics with
    | some ch => some ch
    | none => findChar uuid rest

/-- Embedding of `Advertising.stop` (src/ble_base.py lines 55-60):
`self.ble.gap_advertise(None)` — an unconditional fire-and-forget stack
call that cancels advertising; it contains no operation that can raise,
whatever the current advertising state, so the raised flag is always
`false`. -/
def advertising_stop (st : ManagerState) : ManagerState × Bool :=
  ({ st with advActive := false }, false)

/-- Embedding of `BLEManager.shutdown` (src/ble_base.py lines 187-194):
`self.connections.clear()`, then `self.advertising.stop()`, then
`self.ble.active(False)`; none of these can raise. -/
def shutdown (st : ManagerState) : ManagerState × Bool :=
  let st1 := { st with connections := ∅ }
  let r := advertising_stop st1
  ({ r.1 with bleActive := false }, r.2)

/-- A freshly initialised manager state: no services, empty handle
registry, no connections, no lifecycle callbacks, advertising inactive,
radio active. -/
def st0 : ManagerState where
  services := []
  characteristic_handles := fun _ => none
  connections := ∅
  connect_callback := none
  disconnect_callback := none
  advActive := false
  advStartCount := 0
  bleActive := true

/-- A writable characteristic whose registered write callback raises on
every invocation. -/
def charRaising : BLECharacteristic where
  uuid := "0bfc2787-e220-4b0f-ae98-13731add0002"
  flags := 4
  write_callback := some fun _ _ => true
  handle := some 9

/-- A manager state with `charRaising` registered under handle 9. -/
def stRaising : ManagerState :=
  { st0 with
    characteristic_handles := fun h => if h = 9 then some charRaising else none }

/-- State reached from `st0` after a connect event for id 5. -/
def st0c : ManagerState := { st0 with connections := {5} }

/-- State reached from `st0c` after the disconnect event for id 5. -/
def st0cd : ManagerState :=
  { st0 with connections := ({5} : Finset ℕ).erase 5, advActive := true,
             advStartCount := 1 }

/-- The registry-insertion step of `add_service`'s zip loop. -/
def regStep (r : Nat → Option BLECharacteristic) (p : BLECharacteristic × Nat) :
    Nat → Option BLECharacteristic :=
  insertHandle r p.2 { p.1 with handle := some p.2 }

/-- A two-characteristic service (write char and notify char, as in
`ble_ranger.py`), not yet registered. -/
def svcW : BLEService where
  uuid := "0bfc2787-e220-4b0f-ae98-13731add0000"
  characteristics :=
    [{ uuid := "0bfc2787-e220-4b0f-ae98-13731add0002", flags := 4,
       write_callback := some fun _ _ => false },
     { uuid := "0bfc2787-e220-4b0f-ae98-13731add0001", flags := 16,
       write_callback := none }]

/-- A characteristic for the notify claim, with no write callback. -/
def charTx : BLECharacteristic where
  uuid := "0bfc2787-e220-4b0f-ae98-13731add0001"
  flags := 16
  write_callback := none
  handle := some 12

/-- A manager state carrying `charTx` in one service, with connections
`{5, 9}` (the example of the claim). -/
def stNotify : ManagerState :=
  { st0 with
    services := [{ uuid := "0bfc2787-e220-4b0f-ae98-13731add0000",
                   characteristics := [charTx] }],
    connections := {5, 9} }

end BLEBase

namespace Advertising

/-- Embedding of `Advertising._build_adv_payload` (src/ble_base.py lines
20-32): start from the Flags AD structure `[2, 0x01, 0x06]` and, for each
registered service UUID (`uuid_bytes = bytes(service_uuid)`, 16 bytes for
a 128-bit UUID), append `[len(uuid_bytes) + 1, 0x07]` followed by the
UUID bytes. -/
def build_adv_payload (service_uuids : List (List Nat)) : List Nat :=
  service_uuids.foldl (fun payload u => payload ++ ([u.length + 1, 0x07] ++ u))
    [2, 0x01, 0x06]

/-- Embedding of `Advertising._build_scan_response` (src/ble_base.py
lines 34-41): `[len(name_bytes) + 1, 0x09]` followed by the UTF-8 bytes
of the device name.  (`bytearray([k])` requires `k ≤ 255`, so the model
is faithful for names of at most 254 UTF-8 bytes.) -/
def build_scan_response (name_bytes : List Nat) : List Nat :=
  [name_bytes.length + 1, 0x09] ++ name_bytes

/-- Standard BLE AD-structure parser (specification side, for the
round-trip property): repeatedly read `[length][type][value]` where
`length` counts the type byte plus the value bytes; yields the list of
`(type, value)` pairs. -/
def parseAdStructs : List Nat → Option (List (Nat × List Nat))
  | [] => some []
  | len :: rest =>
    if 1 ≤ len ∧ len ≤ rest.length then
      match parseAdStructs (rest.drop len) with
      | some tl => some ((rest.headD 0, (rest.take len).tail) :: tl)
      | none => none
    else none
termination_by bs => bs.length
decreasing_by simp_all; omega

/-- A concrete 16-byte (128-bit) service UUID. -/
def uuid16 : List Nat :=
  [0x0b, 0xfc, 0x27, 0x87, 0xe2, 0x20, 0x4b, 0x0f,
   0xae, 0x98, 0x13, 0x73, 0x1a, 0xdd, 0x00, 0x00]

end Advertising

namespace BLERanger

example : write_handler cbsChan1 "1:up;2:left;3:" = ([(1, "up")], none) := by decide

example : write_handler cbsChan1 "x:bad;1:up" = ([], some .invalidChannel) := by decide

example : write_handler cbsChan1 "1:a:b" = ([(1, "a")], none) := by decide

example : write_handler cbsChan1 "5;1:up" = ([], some .invalidChannel) := by decide

end BLERanger

namespace BLERanger

theorem splitChar_eq_self (sep : Char) (cs : List Char)
    (h : ∀ c ∈ cs, c ≠ sep) : splitChar sep cs = [cs] := by
  induction cs with
  | nil => rfl
  | cons c rest ih =>
    have hc : c ≠ sep := h c (by simp)
    have hr : splitChar sep rest = [rest] := ih fun x hx => h x (by simp [hx])
    simp [splitChar, hc, hr]

theorem pySplit_eq_self (s : String) (h : ∀ c ∈ s.data, c ≠ ':') :
    pySplit s ':' = [s] := by
  simp [pySplit, splitChar_eq_self ':' s.data h]

theorem routeCommands_cons_parsed (cbs : ChannelCallbacks) (s : String)
    (t : List String) (c d : String) (r : List String) (n : Int)
    (hs : 0 < s.length) (hsplit : pySplit s ':' = c :: d :: r)
    (hc : parsePyInt c = some n) :
    routeCommands cbs (s :: t) =
      match cbs n with
      | some cb =>
        if cb n d then ([(n, d)], some .handlerFailed)
        else ((n, d) :: (routeCommands cbs t).1, (routeCommands cbs t).2)
      | none => routeCommands cbs t := by
  rw [routeCommands]
  simp only [hs, if_true, hsplit, List.headD, List.get?, hc]

theorem routeCommands_cons_abort (cbs : ChannelCallbacks) (s : String)
    (t : List String) (hs : 0 < s.length)
    (hbad : parsePyInt ((pySplit s ':').headD "") = none ∨
            (pySplit s ':').get? 1 = none) :
    routeCommands cbs (s :: t) = ([], some .invalidChannel) := by
  rw [routeCommands]
  simp only [hs, if_true]
  split
  · rcases hbad with h | h <;> simp_all
  · rfl

/-- Claim C2, counterexample: with channel 1 registered, the write batch
`"1:a:b"` invokes the channel-1 callback with data `"a"` (the field
between the first and second `:`), not with `"a:b"` as the claim states:
`write_handler` reads `data = rcv[1]` from the full split
`command.split(":")`, so everything after a second `:` is discarded. -/
theorem C2_counterexample :
    write_handler cbsChan1 "1:a:b" = ([((1 : Int), "a")], none) ∧
    ((1 : Int), "a:b") ∉ (write_handler cbsChan1 "1:a:b").1 := by
  decide

/-- Claim C2 (amended): for every write batch and every segment of the
form `<int>:<rest>`, the data passed to the channel callback is the
second field of the segment's `:`-split, i.e. the text between the first
and the second `:` (the whole remainder only when the segment contains a
single `:`); any further `:`-separated text is discarded. -/
theorem C2_router_data_is_second_split_field (cbs : ChannelCallbacks)
    (s : String) (t : List String) (c d : String) (r : List String)
    (n : Int) (cb : Int → String → Bool)
    (hs : 0 < s.length) (hsplit : pySplit s ':' = c :: d :: r)
    (hc : parsePyInt c = some n) (hcb : cbs n = some cb)
    (hok : cb n d = false) :
    routeCommands cbs (s :: t) =
      ((n, d) :: (routeCommands cbs t).1, (routeCommands cbs t).2) := by
  rw [routeCommands_cons_parsed cbs s t c d r n hs hsplit hc, hcb]
  simp [hok]

/-- Witness for C2's amended theorem at the counterexample input. -/
theorem C2_witness :
    routeCommands cbsChan1 ["1:a:b"] = ([((1 : Int), "a")], none) := by
  have h := C2_router_data_is_second_split_field cbsChan1 "1:a:b" []
    "1" "a" ["b"] 1 (fun _ _ => false) (by decide) (by decide) (by decide)
    rfl rfl
  simpa using h

/-- Claim C3: in a write batch, a segment whose channel token does not
parse as an integer aborts all remaining segments; a parsed segment whose
registered callback raises is the last invocation of the batch (same
fail-fast abort); a parsed segment with no registered callback is merely
reported and processing continues; and concretely `"x:bad;1:up"`
dispatches zero callbacks even though channel 1 is registered. -/
theorem C3_fail_fast :
    (∀ (cbs : ChannelCallbacks) (s : String) (t : List String),
      0 < s.length → parsePyInt ((pySplit s ':').headD "") = none →
      routeCommands cbs (s :: t) = ([], some .invalidChannel)) ∧
    (∀ (cbs : ChannelCallbacks) (s : String) (t : List String)
      (c d : String) (r : List String) (n : Int) (cb : Int → String → Bool),
      0 < s.length → pySplit s ':' = c :: d :: r → parsePyInt c = some n →
      cbs n = some cb → cb n d = true →
      routeCommands cbs (s :: t) = ([(n, d)], some .handlerFailed)) ∧
    (∀ (cbs : ChannelCallbacks) (s : String) (t : List String)
      (c d : String) (r : List String) (n : Int),
      0 < s.length → pySplit s ':' = c :: d :: r → parsePyInt c = some n →
      cbs n = none →
      routeCommands cbs (s :: t) = routeCommands cbs t) ∧
    write_handler cbsChan1 "x:bad;1:up" = ([], some .invalidChannel) := by
  refine ⟨?_, ?_, ?_, by decide⟩
  · intro cbs s t hs hbad
    exact routeCommands_cons_abort cbs s t hs (Or.inl hbad)
  · intro cbs s t c d r n cb hs hsplit hc hcb hraise
    rw [routeCommands_cons_parsed cbs s t c d r n hs hsplit hc, hcb]
    simp [hraise]
  · intro cbs s t c d r n hs hsplit hc hcb
    rw [routeCommands_cons_parsed cbs s t c d r n hs hsplit hc, hcb]

/-- Witness for C3 at a concrete raising handler: the raising invocation
is made, then the rest of the batch is dropped. -/
theorem C3_witness :
    routeCommands cbsRaise1 ["1:boom", "2:x"] =
      ([((1 : Int), "boom")], some .handlerFailed) :=
  C3_fail_fast.2.1 cbsRaise1 "1:boom" ["2:x"] "1" "boom" [] 1
    (fun _ _ => true) (by decide) (by decide) (by decide) rfl rfl

/-- Claim C10: a non-empty segment containing no `:` at all aborts the
entire remaining batch through the same error path as a non-integer
channel token (the `rcv[1]` access raises `IndexError`, caught by the
same `except` that prints `"invalid channel type"` and `break`s), even
when the text before the missing `:` parses as an integer; concretely
`"5;1:up"` dispatches zero callbacks although channel 1 is registered. -/
theorem C10_missing_colon_aborts :
    (∀ (cbs : ChannelCallbacks) (s : String) (t : List String),
      0 < s.length → (∀ c ∈ s.data, c ≠ ':') →
      routeCommands cbs (s :: t) = ([], some .invalidChannel)) ∧
    write_handler cbsChan1 "5;1:up" = ([], some .invalidChannel) := by
  refine ⟨?_, by decide⟩
  intro cbs s t hs hnc
  refine routeCommands_cons_abort cbs s t hs (Or.inr ?_)
  rw [pySplit_eq_self s hnc]
  rfl

/-- Witness for C10 at the segment `"5"` (which parses as an integer but
has no `:`), followed by a well-formed command for registered channel 1. -/
theorem C10_witness :
    routeCommands cbsChan1 ["5", "1:up"] = ([], some .invalidChannel) :=
  C10_missing_colon_aborts.1 cbsChan1 "5" ["1:up"] (by decide) (by decide)

end BLERanger

namespace BLEBase

/-- Claim C1 (refuted; the code contradicts the spec's stated safety
requirement): the event dispatcher `_irq_handler` is *not*
exception-safe.  A write event whose written value is the single byte
`0xFF` (not valid UTF-8) makes `print(value.decode())` raise
`UnicodeError` with no enclosing try/except, and a write event resolving
to a characteristic whose write callback raises also propagates — in both
cases the exception escapes the dispatcher boundary (raised flag
`true`). -/
theorem C1_dispatcher_exception_escapes :
    (irq_handler (fun _ => [0xFF]) st0 (.write 0 9)).2 = true ∧
    (irq_handler (fun _ => [0x75, 0x70]) stRaising (.write 0 9)).2 = true := by
  constructor <;> rfl

/-- Claim C6: after the dispatcher processes a connect event for
connection id `X` followed by a disconnect event for `X` (with neither
lifecycle callback raising), `X` is not in the connection set, the
connect event started advertising zero times, and the disconnect event
restarted advertising exactly once — whether or not a disconnect callback
is registered. -/
theorem C6_connect_disconnect (g g' : Nat → List Nat) (st : ManagerState)
    (X : ℕ) (st1 st2 : ManagerState)
    (h1 : irq_handler g st (.connect X) = (st1, false))
    (h2 : irq_handler g' st1 (.disconnect X) = (st2, false)) :
    X ∉ st2.connections ∧
    st1.advStartCount = st.advStartCount ∧
    st2.advStartCount = st.advStartCount + 1 := by
  have e1 : st1.advStartCount = st.advStartCount := by
    rw [irq_handler] at h1
    rcases hc : st.connect_callback with _ | cb <;> simp [hc] at h1
    · rw [← h1]
    · rw [← h1.1]
  have e2 : st2.connections = st1.connections.erase X ∧
      st2.advStartCount = st1.advStartCount + 1 := by
    rw [irq_handler] at h2
    rcases hd : st1.disconnect_callback with _ | cb <;> simp [hd] at h2
    · exact ⟨by rw [← h2], by rw [← h2]⟩
    · rcases hcb : cb X with _ | _ <;> simp [hcb] at h2
      exact ⟨by rw [← h2], by rw [← h2]⟩
  refine ⟨?_, e1, by rw [e2.2, e1]⟩
  rw [e2.1]
  exact Finset.not_mem_erase X st1.connections

/-- Witness for C6 on a concrete connect/disconnect pair for id 5. -/
theorem C6_witness :
    5 ∉ st0cd.connections ∧
    st0c.advStartCount = st0.advStartCount ∧
    st0cd.advStartCount = st0.advStartCount + 1 :=
  C6_connect_disconnect (fun _ => []) (fun _ => []) st0 5 st0c st0cd rfl rfl

/-- Claim C8: `Advertising.stop()` does not raise, also when advertising
is already stopped (two consecutive stops both return normally), and
`BLEManager.shutdown()` is safely repeatable: two consecutive shutdowns
both return normally and the connection set is empty after each. -/
theorem C8_stop_shutdown_idempotent (st : ManagerState) :
    (advertising_stop st).2 = false ∧
    (advertising_stop (advertising_stop st).1).2 = false ∧
    (advertising_stop (advertising_stop st).1).1.advActive = false ∧
    (shutdown st).2 = false ∧
    (shutdown st).1.connections = ∅ ∧
    (shutdown (shutdown st).1).2 = false ∧
    (shutdown (shutdown st).1).1.connections = ∅ := by
  refine ⟨rfl, rfl, rfl, rfl, rfl, rfl, rfl⟩

theorem assignHandles_get (chs : List BLECharacteristic) (hs : List Nat)
    (i : Nat) (h1 : i < chs.length) (h2 : i < hs.length) :
    (assignHandles chs hs).get? i =
      some { chs.get ⟨i, h1⟩ with handle := some (hs.get ⟨i, h2⟩) } := by
  induction chs generalizing hs i with
  | nil => simp at h1
  | cons ch cht ih =>
    cases hs with
    | nil => simp at h2
    | cons h ht =>
      cases i with
      | zero => rfl
      | succ j =>
        simpa [assignHandles] using
          ih ht j (by simpa using h1) (by simpa using h2)

theorem foldl_regStep_not_mem (pairs : List (BLECharacteristic × Nat))
    (reg : Nat → Option BLECharacteristic) (k : Nat)
    (hk : k ∉ pairs.map Prod.snd) :
    (pairs.foldl regStep reg) k = reg k := by
  induction pairs generalizing reg with
  | nil => rfl
  | cons p ps ih =>
    simp only [List.map_cons, List.mem_cons, not_or] at hk
    rw [List.foldl_cons, ih _ hk.2]
    simp [regStep, insertHandle, hk.1]

theorem foldl_regStep_get (pairs : List (BLECharacteristic × Nat))
    (reg : Nat → Option BLECharacteristic) (i : Nat) (hi : i < pairs.length)
    (hnd : (pairs.map Prod.snd).Nodup) :
    (pairs.foldl regStep reg) (pairs.get ⟨i, hi⟩).2 =
      some { (pairs.get ⟨i, hi⟩).1 with
             handle := some (pairs.get ⟨i, hi⟩).2 } := by
  induction pairs generalizing reg i with
  | nil => simp at hi
  | cons p ps ih =>
    simp only [List.map_cons, List.nodup_cons] at hnd
    cases i with
    | zero =>
      have hg : (p :: ps).get ⟨0, hi⟩ = p := rfl
      rw [hg, List.foldl_cons, foldl_regStep_not_mem ps _ _ hnd.1]
      simp [regStep, insertHandle]
    | succ j =>
      have hj : j < ps.length := by simpa using hi
      have hg : (p :: ps).get ⟨j + 1, hi⟩ = ps.get ⟨j, hj⟩ := rfl
      rw [hg, List.foldl_cons]
      exact ih _ j hj hnd.2

/-- Claim C4: for a service with characteristics `[c1, ..., cN]`
registered via `add_service` and the stack returning handles
`[h1, ..., hN]` (one per characteristic, all distinct), the stored service
holds the characteristics with handle `hi` assigned to `ci` positionally,
and the handle registry afterwards maps `hi` to `ci` (with its assigned
handle) for every `i` — an order-preserving positional zip, for any
`N ≥ 0`. -/
theorem C4_add_service_assigns_handles (st : ManagerState)
    (service : BLEService) (handles : List Nat)
    (hlen : handles.length = service.characteristics.length)
    (hnd : handles.Nodup) :
    (add_service st service (.ok handles)).1.services =
      st.services ++ [{ service with
        characteristics := assignHandles service.characteristics handles }] ∧
    (∀ i (h1 : i < service.characteristics.length) (h2 : i < handles.length),
      (assignHandles service.characteristics handles).get? i =
        some { service.characteristics.get ⟨i, h1⟩ with
               handle := some (handles.get ⟨i, h2⟩) }) ∧
    (∀ i (h1 : i < service.characteristics.length) (h2 : i < handles.length),
      (add_service st service (.ok handles)).1.characteristic_handles
          (handles.get ⟨i, h2⟩) =
        some { service.characteristics.get ⟨i, h1⟩ with
               handle := some (handles.get ⟨i, h2⟩) }) := by
  refine ⟨rfl, fun i h1 h2 => assignHandles_get _ _ i h1 h2, fun i h1 h2 => ?_⟩
  have hzlen : (service.characteristics.zip handles).length = handles.length := by
    rw [List.length_zip, hlen]; omega
  have hkeys : ((service.characteristics.zip handles).map Prod.snd).Nodup := by
    rw [List.map_snd_zip _ _ (le_of_eq hlen)]; exact hnd
  have hiz : i < (service.characteristics.zip handles).length := by omega
  have hget : (service.characteristics.zip handles).get ⟨i, hiz⟩ =
      (service.characteristics.get ⟨i, h1⟩, handles.get ⟨i, h2⟩) := by
    simp [List.get_zip]
  have h := foldl_regStep_get (service.characteristics.zip handles)
    st.characteristic_handles i hiz hkeys
  rw [hget] at h
  have hreg : (add_service st service (.ok handles)).1.characteristic_handles =
      (service.characteristics.zip handles).foldl regStep
        st.characteristic_handles := rfl
  rw [hreg, h]

/-- Witness for C4: registering `svcW` on a fresh manager with stack
handles `[3, 6]` puts the second characteristic under handle 6 in the
registry, with its handle field assigned. -/
theorem C4_witness :
    (add_service st0 svcW (.ok [3, 6])).1.characteristic_handles 6 =
      some { svcW.characteristics.get ⟨1, by decide⟩ with handle := some 6 } := by
  have h := (C4_add_service_assigns_handles st0 svcW [3, 6] (by decide)
    (by decide)).2.2 1 (by decide) (by decide)
  simpa using h

/-- Claim C9: `add_service` is not atomic on stack failure — the service
is appended to `self.services` *before* the stack registration call, so
when the stack raises the exception propagates (`true`) with the manager's
service list still containing the rejected service, whose characteristics
(unassigned before the call, per construction of `BLECharacteristic`)
still have no handle, while the handle registry is unchanged. -/
theorem C9_add_service_not_atomic (st : ManagerState) (service : BLEService)
    (h : ∀ ch ∈ service.characteristics, ch.handle = none) :
    add_service st service (.error ()) =
      ({ st with services := st.services ++ [service] }, true) ∧
    (add_service st service (.error ())).1.services.getLast? = some service ∧
    (add_service st service (.error ())).1.characteristic_handles =
      st.characteristic_handles ∧
    ∀ ch ∈ ((add_service st service (.error ())).1.services.getLast?.getD
        service).characteristics, ch.handle = none := by
  refine ⟨rfl, ?_, rfl, ?_⟩
  · show (st.services ++ [service]).getLast? = some service
    exact List.getLast?_concat _
  · intro ch hch
    refine h ch ?_
    have hl : (add_service st service (.error ())).1.services.getLast? =
        some service := List.getLast?_concat _
    rw [hl] at hch
    simpa using hch

/-- Witness for C9: on a fresh manager, a stack-rejected registration of
`svcW` leaves `svcW` in the service list with the registry untouched. -/
theorem C9_witness :
    add_service st0 svcW (.error ()) =
      ({ st0 with services := st0.services ++ [svcW] }, true) :=
  (C9_add_service_not_atomic st0 svcW (by
    intro ch hch
    fin_cases hch <;> rfl)).1

theorem notifyChars_of_none (uuid : String) (v : List Nat)
    (chs : List BLECharacteristic) (h : findCharInList uuid chs = none) :
    notifyChars uuid v chs = none := by
  induction chs with
  | nil => rfl
  | cons ch rest ih =>
    by_cases he : ch.uuid = uuid
    · simp [findCharInList, he] at h
    · simp only [findCharInList, if_neg he] at h
      simp [notifyChars, he, ih h]

theorem notifyChars_of_some (uuid : String) (v : List Nat)
    (chs : List BLECharacteristic) (ch : BLECharacteristic)
    (h : findCharInList uuid chs = some ch) :
    ∃ chs', notifyChars uuid v chs = some (chs', { ch with value := v }) ∧
      findCharInList uuid chs' = some { ch with value := v } := by
  induction chs with
  | nil => simp [findCharInList] at h
  | cons c rest ih =>
    by_cases he : c.uuid = uuid
    · simp only [findCharInList, if_pos he, Option.some.injEq] at h
      subst h
      exact ⟨{ c with value := v } :: rest, by simp [notifyChars, he],
        by simp [findCharInList, he]⟩
    · simp only [findCharInList, if_neg he] at h
      obtain ⟨chs', h1, h2⟩ := ih h
      exact ⟨c :: chs', by simp [notifyChars, he, h1],
        by simp [findCharInList, he, h2]⟩

theorem notifyServices_of_none (uuid : String) (v : List Nat)
    (svcs : List BLEService) (h : findChar uuid svcs = none) :
    notifyServices uuid v svcs = none := by
  induction svcs with
  | nil => rfl
  | cons s rest ih =>
    rw [findChar] at h
    rcases hf : findCharInList uuid s.characteristics with _ | c
    · rw [hf] at h
      simp only [notifyServices, notifyChars_of_none uuid v _ hf, ih h]
    · rw [hf] at h; exact absurd h (by simp)

theorem notifyServices_of_some (uuid : String) (v : List Nat)
    (svcs : List BLEService) (ch : BLECharacteristic)
    (h : findChar uuid svcs = some ch) :
    ∃ svcs', notifyServices uuid v svcs = some (svcs', { ch with value := v }) ∧
      findChar uuid svcs' = some { ch with value := v } := by
  induction svcs with
  | nil => simp [findChar] at h
  | cons s rest ih =>
    rw [findChar] at h
    rcases hf : findCharInList uuid s.characteristics with _ | c
    · rw [hf] at h
      obtain ⟨rest', h1, h2⟩ := ih h
      refine ⟨s :: rest', ?_, ?_⟩
      · simp only [notifyServices, notifyChars_of_none uuid v _ hf, h1]
      · rw [findChar, hf, h2]
    · rw [hf, Option.some.injEq] at h
      subst h
      obtain ⟨chs', h1, h2⟩ := notifyChars_of_some uuid v _ _ hf
      refine ⟨{ s with characteristics := chs' } :: rest, ?_, ?_⟩
      · simp only [notifyServices, h1]
      · rw [findChar]
        simp only [h2]

/-- Claim C7: `notify(uuid, v)` on a UUID with no registered
characteristic performs zero stack calls and leaves the state unchanged;
on a registered UUID it updates the (first) matching characteristic's
cached value to `v` and performs exactly one `gatts_notify` stack call per
connection id in the connection set, each carrying that characteristic's
handle and `v`. -/
theorem C7_notify (st : ManagerState) (u : String) (v : List Nat) :
    (findChar u st.services = none → notify st u v = (st, [])) ∧
    ∀ ch, findChar u st.services = some ch →
      findChar u (notify st u v).1.services = some { ch with value := v } ∧
      (∀ call ∈ (notify st u v).2, call.2.1 = ch.handle ∧ call.2.2 = v) ∧
      (∀ conn, ((notify st u v).2.map fun c => c.1).count conn =
        if conn ∈ st.connections then 1 else 0) ∧
      (notify st u v).2.length = st.connections.card := by
  constructor
  · intro h
    rw [notify, notifyServices_of_none u v _ h]
  · intro ch h
    obtain ⟨svcs', h1, h2⟩ := notifyServices_of_some u v _ _ h
    have hn : notify st u v =
        ({ st with services := svcs' },
         (st.connections.sort (· ≤ ·)).map fun conn =>
           (conn, ({ ch with value := v } : BLECharacteristic).handle, v)) := by
      rw [notify, h1]
    refine ⟨by rw [hn]; exact h2, ?_, ?_, ?_⟩
    · intro call hc
      rw [hn] at hc
      simp only [List.mem_map] at hc
      obtain ⟨conn, _, hcall⟩ := hc
      rw [← hcall]
      exact ⟨rfl, rfl⟩
    · intro conn
      have hmap : ((notify st u v).2.map fun c => c.1) =
          st.connections.sort (· ≤ ·) := by
        rw [hn]
        simp only [List.map_map]
        have hid : ((fun c : ℕ × Option ℕ × List ℕ => c.1) ∘ fun conn =>
            (conn, ({ ch with value := v } : BLECharacteristic).handle, v)) =
              id := rfl
        rw [hid, List.map_id]
      rw [hmap]
      by_cases hm : conn ∈ st.connections
      · rw [if_pos hm]
        exact List.count_eq_one_of_mem (Finset.sort_nodup _ _)
          ((Finset.mem_sort _).mpr hm)
      · rw [if_neg hm]
        exact List.count_eq_zero_of_not_mem
          (fun hc => hm ((Finset.mem_sort _).mp hc))
    · rw [hn]
      simp [Finset.length_sort]

/-- Witness for C7: notifying the registered UUID with connections
`{5, 9}` performs exactly `card {5, 9} = 2` stack notify calls, one per
connection. -/
theorem C7_witness :
    (notify stNotify "0bfc2787-e220-4b0f-ae98-13731add0001" [1, 2]).2.length =
      ({5, 9} : Finset ℕ).card ∧
    ((notify stNotify "0bfc2787-e220-4b0f-ae98-13731add0001"
        [1, 2]).2.map fun c => c.1).count 5 = 1 := by
  have h := (C7_notify stNotify "0bfc2787-e220-4b0f-ae98-13731add0001"
    [1, 2]).2 charTx rfl
  refine ⟨h.2.2.2, ?_⟩
  have hc := h.2.2.1 5
  simpa using hc

end BLEBase

namespace Advertising

theorem build_adv_payload_eq_join (service_uuids : List (List Nat)) :
    build_adv_payload service_uuids =
      [2, 1, 6] ++ (service_uuids.map fun u => (u.length + 1) :: 7 :: u).join := by
  suffices h : ∀ acc : List Nat,
      service_uuids.foldl (fun payload u => payload ++ ([u.length + 1, 0x07] ++ u)) acc =
        acc ++ (service_uuids.map fun u => (u.length + 1) :: 7 :: u).join by
    exact h [2, 1, 6]
  induction service_uuids with
  | nil => intro acc; simp
  | cons u us ih =>
    intro acc
    rw [List.foldl_cons, ih]
    simp

theorem parseAdStructs_struct_cons (t : Nat) (val rest : List Nat) :
    parseAdStructs ((val.length + 1) :: t :: (val ++ rest)) =
      match parseAdStructs rest with
      | some tl => some ((t, val) :: tl)
      | none => none := by
  rw [parseAdStructs]
  have hc : 1 ≤ val.length + 1 ∧ val.length + 1 ≤ (t :: (val ++ rest)).length := by
    simp
  rw [if_pos hc]
  have htake : (t :: (val ++ rest)).take (val.length + 1) = t :: val := by
    rw [List.take_succ_cons, List.take_left]
  have hdrop : (t :: (val ++ rest)).drop (val.length + 1) = rest := by
    rw [List.drop_succ_cons, List.drop_left]
  rw [htake, hdrop]
  cases parseAdStructs rest <;> rfl

theorem parseAdStructs_join (uuids : List (List Nat)) :
    parseAdStructs ((uuids.map fun u => (u.length + 1) :: 7 :: u).join) =
      some (uuids.map fun u => (7, u)) := by
  induction uuids with
  | nil => simp [parseAdStructs]
  | cons u us ih =>
    have h := parseAdStructs_struct_cons 7 u
      ((us.map fun w => (w.length + 1) :: 7 :: w).join)
    calc parseAdStructs (((u :: us).map fun w => (w.length + 1) :: 7 :: w).join)
        = parseAdStructs ((u.length + 1) :: 7 ::
            (u ++ (us.map fun w => (w.length + 1) :: 7 :: w).join)) := rfl
      _ = some (((u :: us).map fun w => (7, w))) := by rw [h, ih]; rfl

theorem parseAdStructs_adv (uuids : List (List Nat)) :
    parseAdStructs ([2, 1, 6] ++ (uuids.map fun u => (u.length + 1) :: 7 :: u).join) =
      some ((1, [6]) :: uuids.map fun u => (7, u)) := by
  have h := parseAdStructs_struct_cons 1 [6]
    ((uuids.map fun u => (u.length + 1) :: 7 :: u).join)
  calc parseAdStructs ([2, 1, 6] ++ (uuids.map fun u => (u.length + 1) :: 7 :: u).join)
      = parseAdStructs ((([6] : List Nat).length + 1) :: 1 ::
          ([6] ++ (uuids.map fun u => (u.length + 1) :: 7 :: u).join)) := rfl
    _ = some ((1, [6]) :: uuids.map fun u => (7, u)) := by
        rw [h, parseAdStructs_join]

theorem adv_uuid_section_length (uuids : List (List Nat))
    (hu : ∀ u ∈ uuids, u.length = 16) :
    ((uuids.map fun u => (u.length + 1) :: 7 :: u).join).length = 18 * uuids.length := by
  induction uuids with
  | nil => rfl
  | cons u us ih =>
    have h16 : u.length = 16 := hu u (List.mem_cons_self u us)
    have ih' := ih fun w hw => hu w (List.mem_cons_of_mem u hw)
    have e : (((u :: us).map fun w => (w.length + 1) :: 7 :: w).join).length =
        ((u.length + 1) :: 7 ::
          (u ++ (us.map fun w => (w.length + 1) :: 7 :: w).join)).length := rfl
    rw [e]
    simp only [List.length_cons, List.length_append]
    rw [h16, ih']
    omega

/-- Claim C5: for any device name (of at most 254 UTF-8 bytes, the range
`bytearray` accepts for the length byte) and any list of N 128-bit (16
byte) service UUIDs, the advertising payload is the 3-byte Flags
structure `02 01 06` followed by one 18-byte structure `[17] 07 <16 uuid
bytes>` per UUID (total length `3 + 18·N`); the scan response is
`[len(name)+1] 09 <name bytes>` of length `len(name)+2`; and re-parsing
the advertising payload as AD structures recovers the flags value `0x06`
and every UUID in order. -/
theorem C5_advertising_payloads (uuids : List (List Nat))
    (name_bytes : List Nat) (hu : ∀ u ∈ uuids, u.length = 16)
    (hname : name_bytes.length ≤ 254) :
    build_adv_payload uuids = [2, 1, 6] ++ (uuids.map fun u => 17 :: 7 :: u).join ∧
    (build_adv_payload uuids).length = 3 + 18 * uuids.length ∧
    build_scan_response name_bytes = (name_bytes.length + 1) :: 9 :: name_bytes ∧
    (build_scan_response name_bytes).length = name_bytes.length + 2 ∧
    parseAdStructs (build_adv_payload uuids) =
      some ((1, [6]) :: uuids.map fun u => (7, u)) := by
  have hmap : (uuids.map fun u => (u.length + 1) :: 7 :: u) =
      uuids.map fun u => 17 :: 7 :: u :=
    List.map_congr_left fun u hu' => by rw [hu u hu']
  refine ⟨?_, ?_, rfl, ?_, ?_⟩
  · rw [build_adv_payload_eq_join, hmap]
  · rw [build_adv_payload_eq_join]
    simp only [List.length_append]
    rw [adv_uuid_section_length uuids hu]
    rfl
  · simp [build_scan_response]
  · rw [build_adv_payload_eq_join]
    exact parseAdStructs_adv uuids

/-- Witness for C5 on one concrete UUID and a one-byte name: the
round-trip parse recovers the flags and the UUID. -/
theorem C5_witness :
    parseAdStructs (build_adv_payload [uuid16]) =
      some [(1, [6]), (7, uuid16)] := by
  have h := (C5_advertising_payloads [uuid16] [65] (by decide) (by decide)).2.2.2.2
  simpa using h

end Advertising
